import Mathlib

/-!
Verification of the Nestjs-OpenTelemetry auto-instrumentation core against
its natural-language specification.  The repository's `defaultConfig`
(src/open-telemetry.constants.ts) is embedded directly; the injector
engine, the connection-attribute resolver and the traced-scenario
behaviour are modelled from the specification, since only their tests ship
in the sources.
-/

namespace NestOtel

/-! ## Global configuration (embedded from src/open-telemetry.constants.ts) -/

/-- The injector classes named in `defaultConfig.autoInjectors`. -/
inductive InjectorKind where
  | decorator
  | schedule
  | controller
  | guard
  | pipe
  | interceptor
  | exceptionFilter
  | typeorm
  | logger
  | provider
  | middleware
deriving DecidableEq, Repr

/-- Propagator implementations that can appear inside the composite
propagator built in `defaultConfig`. -/
inductive PropagatorImpl where
  | w3cTraceContext
deriving DecidableEq, Repr

/-- `CompositePropagator` from `@opentelemetry/core`: a list of member
propagators, as constructed in src/open-telemetry.constants.ts. -/
structure CompositePropagatorModel where
  propagators : List PropagatorImpl
deriving DecidableEq, Repr

/-- Resource detectors listed in `defaultConfig.resourceDetectors`. -/
inductive ResourceDetectorKind where
  | container
  | hostSync
  | env
deriving DecidableEq, Repr

/-- The shape of `OpenTelemetryModuleConfig` as used by `defaultConfig`
(the `resource` service-version field reads package.json at process start
and is outside this embedding). -/
structure OpenTelemetryModuleConfig where
  serviceName : String
  autoInjectors : List InjectorKind
  autoDetectResources : Bool
  resourceDetectors : List ResourceDetectorKind
  textMapPropagator : CompositePropagatorModel
deriving DecidableEq, Repr

/-- `defaultConfig` from src/open-telemetry.constants.ts, lines 31-57. -/
def defaultConfig : OpenTelemetryModuleConfig :=
  { serviceName := "UNKNOWN"
    autoInjectors :=
      [ .decorator, .schedule, .controller, .guard, .pipe, .interceptor,
        .exceptionFilter, .typeorm, .logger, .provider, .middleware ]
    autoDetectResources := true
    resourceDetectors := [.container, .hostSync, .env]
    textMapPropagator := { propagators := [.w3cTraceContext] } }

/-! ## Connection-descriptor attribute resolution (C4-C6)

Modelled from the spec: `getConnectionAttributes` itself is not under the
shipped sources (only its test, src/trace/tests/typeorm.injector.spec.ts);
the definitions below follow spec section 3, "Connection Descriptor →
Attributes". -/

/-- Modelled from the spec: driver-kind-to-system-identifier static lookup
table (spec section 3); entries cover the driver kinds the spec and test
exercise. -/
def dbSystemOf : String → Option String
  | "sqlite" => some "sqlite"
  | "postgres" => some "postgresql"
  | "aurora-postgres" => some "postgresql"
  | "mysql" => some "mysql"
  | "mariadb" => some "mysql"
  | _ => none

/-- Modelled from the spec: driver-kind-to-default-port static lookup table
(spec section 3). -/
def defaultPortOf : String → Option Nat
  | "postgres" => some 5432
  | "aurora-postgres" => some 5432
  | "mysql" => some 3306
  | "mariadb" => some 3306
  | _ => none

/-- A data-source configuration: driver kind plus either a connection URL
or discrete host/port/database fields (spec section 3 and glossary,
"Connection descriptor"). -/
structure ConnectionOptions where
  type : String
  url : Option String := none
  host : Option String := none
  port : Option Nat := none
  database : Option String := none
deriving DecidableEq, Repr

/-- The canonical attribute set produced from a connection descriptor:
system identifier, namespace (database name), server address, server port
(spec section 3). -/
structure ConnAttributes where
  dbSystem : Option String := none
  dbNamespace : Option String := none
  serverAddress : Option String := none
  serverPort : Option Nat := none
deriving DecidableEq, Repr

/-- Split a character list at every occurrence of the separator
character. -/
def splitOnChar (c : Char) : List Char → List (List Char)
  | [] => [[]]
  | x :: xs =>
    match splitOnChar c xs with
    | [] => if x = c then [[], [x]] else [[x]]
    | y :: ys => if x = c then [] :: y :: ys else (x :: y) :: ys

/-- Drop everything up to and including the first "://" occurrence,
returning the remainder, or the whole input when no scheme marker
exists. -/
def afterScheme : List Char → List Char
  | ':' :: '/' :: '/' :: rest => rest
  | _ :: rest => afterScheme rest
  | [] => []

/-- Whether the character list holds a "://" scheme marker. -/
def hasScheme : List Char → Bool
  | ':' :: '/' :: '/' :: _ => true
  | _ :: rest => hasScheme rest
  | [] => false

/-- Strip a `user:password@` userinfo part: keep what follows the last
`@`. -/
def afterUserinfo (l : List Char) : List Char :=
  (splitOnChar '@' l).getLastD l

/-- Parse a decimal number from characters; `none` on empty or non-digit
input. -/
def charsToNat : List Char → Option Nat
  | [] => none
  | l => go 0 l
where
  go : Nat → List Char → Option Nat
    | acc, [] => some acc
    | acc, c :: cs =>
      if c.isDigit then go (acc * 10 + (c.toNat - '0'.toNat)) cs else none

/-- Modelled from the spec: when a URL form is supplied, server address,
server port and namespace are parsed from the URL (spec section 3).  The
URL is decomposed as `scheme://userinfo@host:port/database`. -/
def parseUrl (u : String) : Option String × Option Nat × Option String :=
  let body := if hasScheme u.data then afterScheme u.data else u.data
  let authPath := afterUserinfo body
  match splitOnChar '/' authPath with
  | [] => (none, none, none)
  | hostport :: pathSegs =>
    let hp := splitOnChar ':' hostport
    let host := (hp.headD hostport)
    let port := match hp with
      | _ :: p :: _ => charsToNat p
      | _ => none
    let db := pathSegs.head?
    (some (String.mk host), port, db.map String.mk)

/-- Modelled from the spec: `getConnectionAttributes` maps a data-source
configuration to the canonical attribute set.  URL form: address, port,
namespace come from the URL, with the port falling back to the driver's
default when the URL carries none.  Discrete form: each field falls back
to its documented default (host `localhost`, port per driver) only when
absent (spec sections 3 and 8; the implementation is not under the shipped
sources). -/
def getConnectionAttributes (o : ConnectionOptions) : ConnAttributes :=
  match o.url with
  | some u =>
    let (addr, port, db) := parseUrl u
    { dbSystem := dbSystemOf o.type
      dbNamespace := db
      serverAddress := addr
      serverPort := match port with
        | some p => some p
        | none => defaultPortOf o.type }
  | none =>
    { dbSystem := dbSystemOf o.type
      dbNamespace := o.database
      serverAddress := some ((o.host).getD "localhost")
      serverPort := match o.port with
        | some p => some p
        | none => defaultPortOf o.type }

/-! ## Traced data-access scenario (C2)

Modelled from the spec: the injectors that emit these spans are not under
the shipped sources (only the test
src/trace/tests/typeorm.injector.spec.ts); the production rule below
follows spec sections 4.3 and 8. -/

/-- Statement kinds observed through the data-access library hooks
(spec section 4.3, query-level row). -/
inductive SqlVerb where
  | select
  | beginTx
  | insert
  | update
  | delete
  | commit
deriving DecidableEq, Repr

/-- Manager-level operations appearing in the end-to-end scenario:
save of a new row, save of a partial update, find, remove. -/
inductive ManagerOp where
  | saveNew
  | savePartialUpdate
  | findAll
  | removeRows
deriving DecidableEq, Repr

/-- Modelled from the spec: the library-level statements each
manager-level operation actually issues (spec section 8: save of a new row
yields SELECT, BEGIN, INSERT, COMMIT; the partial-update save yields
UPDATE in place of INSERT; find issues a bare SELECT; remove yields
SELECT, BEGIN, DELETE, COMMIT as the test records). -/
def statementsOf : ManagerOp → List SqlVerb
  | .saveNew => [.select, .beginTx, .insert, .commit]
  | .savePartialUpdate => [.select, .beginTx, .update, .commit]
  | .findAll => [.select]
  | .removeRows => [.select, .beginTx, .delete, .commit]

/-- Span name of a query-level statement: `<Library> -> <SQL_VERB>`
(spec section 4.3). -/
def verbSpanName : SqlVerb → String
  | .select => "TypeORM -> SELECT"
  | .beginTx => "TypeORM -> BEGIN"
  | .insert => "TypeORM -> INSERT"
  | .update => "TypeORM -> UPDATE"
  | .delete => "TypeORM -> DELETE"
  | .commit => "TypeORM -> COMMIT"

/-- Span name of a manager-level call:
`<Library> -> EntityManager -> <operation>` (spec section 4.3). -/
def managerSpanName : ManagerOp → String
  | .saveNew => "TypeORM -> EntityManager -> save"
  | .savePartialUpdate => "TypeORM -> EntityManager -> save"
  | .findAll => "TypeORM -> EntityManager -> find"
  | .removeRows => "TypeORM -> EntityManager -> remove"

/-- Modelled from the spec: span names produced, in order, by a traced
provider method performing the given manager-level operations — first the
provider-level span, then per manager call its manager-level span followed
by the library-level statement spans of that operation (spec sections 4.3
and 8). -/
def scenarioSpans (providerSpan : String) (ops : List ManagerOp) :
    List String :=
  providerSpan ::
    (ops.map fun op =>
      managerSpanName op :: (statementsOf op).map verbSpanName).flatten

/-! ## Method-wrapping engine (C1, C8)

Modelled from the spec: the wrapping engine is not under the shipped
sources; the definitions follow spec section 4.2 ("Method-Wrapping
Engine") and section 7 (b). -/

/-- Observable outcome of invoking a method: synchronous return or throw,
a promise-like value settling with a resolution or rejection, or a stream
emitting values and then completing or erroring (spec section 4.2). -/
inductive MethodOutcome (β ε : Type) where
  | sync : β → MethodOutcome β ε
  | syncThrow : ε → MethodOutcome β ε
  | promiseResolve : β → MethodOutcome β ε
  | promiseReject : ε → MethodOutcome β ε
  | stream : List β → Option ε → MethodOutcome β ε
deriving DecidableEq, Repr

/-- Span status: unset, ok, or error with the recorded exception
(spec section 3, "Span Descriptor"). -/
inductive SpanStatus (ε : Type) where
  | unset
  | ok
  | error : ε → SpanStatus ε
deriving DecidableEq, Repr

/-- A span as finalized by the wrapper: name, status, whether it was
ended, and the exception recorded on it if any. -/
structure SpanRecord (ε : Type) where
  name : String
  status : SpanStatus ε
  ended : Bool
  recorded : Option ε
deriving DecidableEq, Repr

/-- The span freshly started on wrapper entry, before the original body
runs (spec section 4.2, "On entry"). -/
def startSpan (name : String) : SpanRecord ε :=
  { name, status := .unset, ended := false, recorded := none }

/-- Finalize a span as ok and end it. -/
def endOk (s : SpanRecord ε) : SpanRecord ε :=
  { s with status := .ok, ended := true }

/-- Record the exception on the span, mark it error, and end it
(spec sections 4.2 and 7 (b)). -/
def endError (s : SpanRecord ε) (e : ε) : SpanRecord ε :=
  { s with status := .error e, ended := true, recorded := some e }

/-- The wrapper's internal pass-through subscription over a stream: each
emitted value is observed and re-emitted unchanged (spec section 4.2,
"Stream/observable return"). -/
def passThrough (emitted : List β) : List β :=
  emitted.foldl (fun acc v => acc ++ [v]) []

/-- Modelled from the spec: `wrapMethod name f` is the wrapper `f'`
installed in place of `f`.  It starts a span, invokes `f` with the
original receiver and arguments, classifies the result shape, finalizes
the span on settlement (ok on success, error with the captured exception
on throw/reject/stream error), and hands the original outcome back to the
caller — a new promise settling with exactly the original outcome, or a
stream re-emitting the original values (spec section 4.2). -/
def wrapMethod (name : String) (f : ρ → List α → MethodOutcome β ε)
    (self : ρ) (args : List α) : MethodOutcome β ε × SpanRecord ε :=
  let span := startSpan name
  match f self args with
  | .sync v => (.sync v, endOk span)
  | .syncThrow e => (.syncThrow e, endError span e)
  | .promiseResolve v => (.promiseResolve v, endOk span)
  | .promiseReject e => (.promiseReject e, endError span e)
  | .stream vs fin =>
    ( .stream (passThrough vs) fin,
      match fin with
      | none => endOk span
      | some e => endError span e )

/-- The exception with which an outcome throws, rejects or errors, if any
(spec section 7 (b)). -/
def thrownError : MethodOutcome β ε → Option ε
  | .syncThrow e => some e
  | .promiseReject e => some e
  | .stream _ (some e) => some e
  | _ => none

/-- A concrete method used to witness error propagation: it always throws
the numeric exception 7. -/
def throwingMethod : Unit → List Unit → MethodOutcome Nat Nat :=
  fun _ _ => .syncThrow 7

/-! ## Injector idempotency (C7)

Modelled from the spec: `inject` marks each (instance, method) pair the
first time it wraps it and skips already-marked pairs, so repeated
`inject` calls are no-ops (spec sections 3 and 4.2, "Re-entrancy"). -/

/-- The instrumentation state of one (instance, method) pair: how many
wrapper layers are installed around the original method, and whether the
pair carries the already-instrumented marker. -/
structure InstrumentedMethod where
  wrapperLayers : Nat
  marked : Bool
deriving DecidableEq, Repr

/-- A method as discovered at bootstrap: no wrapper installed, not yet
marked. -/
def freshMethod : InstrumentedMethod :=
  { wrapperLayers := 0, marked := false }

/-- Modelled from the spec: one `inject` call on the pair.  An unmarked
method gets one wrapper layer and the marker; a marked method is left
untouched (spec section 4.2, "Re-entrancy"). -/
def injectOnce (m : InstrumentedMethod) : InstrumentedMethod :=
  if m.marked then m
  else { wrapperLayers := m.wrapperLayers + 1, marked := true }

/-- `injectN n m` applies `inject` to the same pair `n` times. -/
def injectN : Nat → InstrumentedMethod → InstrumentedMethod
  | 0, m => m
  | n + 1, m => injectN n (injectOnce m)

/-- One external call through `layers` wrapper layers: each layer emits
one span and delegates inward, and the innermost delegate invokes the
underlying original method once.  Returns (original-method invocations,
spans emitted). -/
def callThroughLayers : Nat → Nat × Nat
  | 0 => (1, 0)
  | n + 1 =>
    let inner := callThroughLayers n
    (inner.1, inner.2 + 1)

/-! ## Nested instrumented calls under interleaving (C3)

Modelled from the spec: spans nest by call chain because the active
context is captured at span start and restored whenever deferred work for
that call resumes (spec sections 4.2 and 5).  The model is the spec's
concurrency model: one logical thread, cooperative suspension, arbitrarily
many in-flight chains interleaved by a scheduler. -/

/-- A span emitted by an instrumented call: its identifier and the
identifier of its causal ancestor (none for a root call). -/
structure EmittedSpan where
  sid : Nat
  parent : Option Nat
deriving DecidableEq, Repr

/-- One in-flight chain of nested instrumented calls: the spans it has
emitted so far in order, the number of nested calls still to run, and its
captured active context (the identifier of the span of its direct caller,
restored whenever the chain is resumed). -/
structure ChainState where
  emitted : List EmittedSpan
  remaining : Nat
  ctx : Option Nat
deriving DecidableEq, Repr

/-- The whole cooperative system: every in-flight chain plus the shared
span-identifier counter. -/
structure SchedState where
  chains : List ChainState
  fresh : Nat
deriving DecidableEq, Repr

/-- Initial state for chains of the given nesting depths: nothing emitted,
every chain a root (empty captured context). -/
def initChains (depths : List Nat) : SchedState :=
  { chains := depths.map fun n => { emitted := [], remaining := n, ctx := none }
    fresh := 0 }

/-- Resume one chain: if calls remain, the next nested call starts a span
whose parent is the chain's captured context, and the chain's context
becomes that span — otherwise resuming is a no-op. -/
def stepChain (fresh : Nat) (c : ChainState) : ChainState :=
  match c.remaining with
  | 0 => c
  | n + 1 =>
    { emitted := c.emitted ++ [{ sid := fresh, parent := c.ctx }]
      remaining := n
      ctx := some fresh }

/-- Replace the element at the given position, leaving the rest
unchanged. -/
def modifyAt (f : α → α) : Nat → List α → List α
  | _, [] => []
  | 0, a :: rest => f a :: rest
  | n + 1, a :: rest => a :: modifyAt f n rest

/-- One scheduler step: the chosen chain is resumed with its own captured
context while every other chain is untouched. -/
def schedStep (s : SchedState) (i : Nat) : SchedState :=
  { chains := modifyAt (stepChain s.fresh) i s.chains, fresh := s.fresh + 1 }

/-- Run the scheduler over an arbitrary interleaving of chain
resumptions. -/
def run (s : SchedState) : List Nat → SchedState
  | [] => s
  | i :: rest => run (schedStep s i) rest

/-- Whether every chain has finished all its nested calls. -/
def allDone (s : SchedState) : Bool :=
  s.chains.all fun c => c.remaining = 0

/-- `linkedFrom p l q` holds when the span list `l` is a chain whose first
span has parent `p`, each later span's parent is its predecessor, and `q`
is the context left active after the last span. -/
def linkedFrom (p : Option Nat) : List EmittedSpan → Option Nat → Bool
  | [], q => q = p
  | s :: rest, q => (s.parent = p : Bool) && linkedFrom (some s.sid) rest q

/-- The spans of one chain are well linked: the first is a root (parent
none) and every later span records its predecessor as parent. -/
def wellLinked (p : Option Nat) : List EmittedSpan → Bool
  | [] => true
  | s :: rest => (s.parent = p : Bool) && wellLinked (some s.sid) rest

/-- The per-chain verdict the claim asks for: the chain at the given
position exists, emitted exactly `n` spans, and those spans are well
linked. -/
def chainReport (oc : Option ChainState) (n : Nat) : Bool :=
  match oc with
  | none => false
  | some c => (c.emitted.length = n : Bool) && wellLinked none c.emitted

/-- The invariant tying one chain to its declared depth: span count plus
remaining calls is the depth, and the emitted spans are linked with the
captured context continuing the chain. -/
def chainInv (n : Nat) (c : ChainState) : Prop :=
  c.emitted.length + c.remaining = n ∧ linkedFrom none c.emitted c.ctx = true

/-- Pointwise correspondence between a declared depth and a chain state. -/
def optRel : Option Nat → Option ChainState → Prop
  | none, none => True
  | some n, some c => chainInv n c
  | _, _ => False

/-- The system invariant: every position relates declared depth to chain
state. -/
def sysInv (depths : List Nat) (s : SchedState) : Prop :=
  ∀ i : Nat, optRel (depths[i]?) (s.chains[i]?)

end NestOtel

/-! ## Helper lemmas -/

theorem NestOtel.passThrough_eq (l : List β) : NestOtel.passThrough l = l := by
  suffices h : ∀ acc : List β, l.foldl (fun acc v => acc ++ [v]) acc = acc ++ l by
    simpa [NestOtel.passThrough] using h []
  induction l with
  | nil => simp
  | cons x xs ih => intro acc; simp [List.foldl, ih]

theorem NestOtel.linkedFrom_append (l : List NestOtel.EmittedSpan)
    (p q : Option Nat) (f : Nat) (h : NestOtel.linkedFrom p l q = true) :
    NestOtel.linkedFrom p (l ++ [{ sid := f, parent := q }]) (some f) = true := by
  induction l generalizing p with
  | nil =>
    simp [NestOtel.linkedFrom] at h
    simp [NestOtel.linkedFrom, h]
  | cons s rest ih =>
    simp [NestOtel.linkedFrom] at h ⊢
    exact ⟨h.1, ih _ h.2⟩

theorem NestOtel.linkedFrom_wellLinked (l : List NestOtel.EmittedSpan)
    (p q : Option Nat) (h : NestOtel.linkedFrom p l q = true) :
    NestOtel.wellLinked p l = true := by
  induction l generalizing p with
  | nil => simp [NestOtel.wellLinked]
  | cons s rest ih =>
    simp [NestOtel.linkedFrom] at h
    simp [NestOtel.wellLinked, h.1]
    exact ih _ h.2

theorem NestOtel.getElem?_modifyAt (f : α → α) (j : Nat) (l : List α) (i : Nat) :
    (NestOtel.modifyAt f j l)[i]? =
      if j = i then (l[i]?).map f else l[i]? := by
  induction l generalizing i j with
  | nil => simp [NestOtel.modifyAt]
  | cons a rest ih =>
    cases j with
    | zero =>
      cases i with
      | zero => simp [NestOtel.modifyAt]
      | succ i' => simp [NestOtel.modifyAt]
    | succ j' =>
      cases i with
      | zero => simp [NestOtel.modifyAt]
      | succ i' =>
        simp only [NestOtel.modifyAt, List.getElem?_cons_succ, ih]
        by_cases hji : j' = i' <;> simp [hji]

theorem NestOtel.chainInv_stepChain (n fresh : Nat) (c : NestOtel.ChainState)
    (h : NestOtel.chainInv n c) :
    NestOtel.chainInv n (NestOtel.stepChain fresh c) := by
  obtain ⟨hlen, hlink⟩ := h
  cases hr : c.remaining with
  | zero => simpa [NestOtel.stepChain, hr] using ⟨hlen, hlink⟩
  | succ m =>
    constructor
    · simp [NestOtel.stepChain, hr]
      omega
    · simp only [NestOtel.stepChain, hr]
      exact NestOtel.linkedFrom_append _ _ _ _ hlink

theorem NestOtel.sysInv_schedStep (depths : List Nat) (s : NestOtel.SchedState)
    (j : Nat) (h : NestOtel.sysInv depths s) :
    NestOtel.sysInv depths (NestOtel.schedStep s j) := by
  intro i
  have hi := h i
  simp only [NestOtel.schedStep, NestOtel.getElem?_modifyAt]
  by_cases hji : j = i
  · simp only [hji, if_pos rfl]
    cases hd : depths[i]? with
    | none =>
      rw [hd] at hi
      cases hc : s.chains[i]? with
      | none => simp [NestOtel.optRel]
      | some c => rw [hc] at hi; exact absurd hi (by simp [NestOtel.optRel])
    | some n =>
      rw [hd] at hi
      cases hc : s.chains[i]? with
      | none => rw [hc] at hi; exact absurd hi (by simp [NestOtel.optRel])
      | some c =>
        rw [hc] at hi
        simpa [NestOtel.optRel] using
          NestOtel.chainInv_stepChain n s.fresh c hi
  · simpa [hji] using hi

theorem NestOtel.sysInv_run (depths : List Nat) (s : NestOtel.SchedState)
    (sched : List Nat) (h : NestOtel.sysInv depths s) :
    NestOtel.sysInv depths (NestOtel.run s sched) := by
  induction sched generalizing s with
  | nil => exact h
  | cons j rest ih =>
    exact ih _ (NestOtel.sysInv_schedStep depths s j h)

theorem NestOtel.sysInv_init (depths : List Nat) :
    NestOtel.sysInv depths (NestOtel.initChains depths) := by
  intro i
  simp only [NestOtel.initChains, List.getElem?_map]
  cases hd : depths[i]? with
  | none => simp [NestOtel.optRel]
  | some n =>
    simp [NestOtel.optRel, NestOtel.chainInv, NestOtel.linkedFrom]

/-! ## Claim theorems -/

/-- C9: when the bootstrap configuration does not supply a
`textMapPropagator`, the default configuration's propagator is a composite
holding exactly one W3C trace-context propagator, so no other propagation
format is active by default. -/
theorem defaultConfig_textMapPropagator_single_w3c :
    NestOtel.defaultConfig.textMapPropagator.propagators
      = [NestOtel.PropagatorImpl.w3cTraceContext] := rfl

/-- C10: when the bootstrap configuration does not supply a `serviceName`,
the default configuration sets the service identity to the literal string
"UNKNOWN" rather than leaving it absent. -/
theorem defaultConfig_serviceName_unknown :
    NestOtel.defaultConfig.serviceName = "UNKNOWN" := rfl

/-- C6: a sqlite in-memory connection descriptor resolves to the system
identifier "sqlite". -/
theorem connectionAttributes_sqlite_memory :
    (NestOtel.getConnectionAttributes
        { type := "sqlite", database := some ":memory:" }).dbSystem
      = some "sqlite" := by decide

/-- C4: a postgres descriptor carrying only a URL yields system
"postgresql", with namespace "postgres" and address "localhost" parsed
from the URL, and port 5432 supplied by the driver-default table because
the URL has no port. -/
theorem connectionAttributes_postgres_url :
    NestOtel.getConnectionAttributes
        { type := "postgres", url := some "postgres://u:p@localhost/postgres" }
      = { dbSystem := some "postgresql", dbNamespace := some "postgres",
          serverAddress := some "localhost", serverPort := some 5432 } := by
  decide

/-- C5: a mysql descriptor with database "test" and no host or port yields
system "mysql", namespace "test", and the defaults address "localhost" and
port 3306; supplying explicit host and port suppresses both defaults. -/
theorem connectionAttributes_mysql_defaults :
    NestOtel.getConnectionAttributes { type := "mysql", database := some "test" }
        = { dbSystem := some "mysql", dbNamespace := some "test",
            serverAddress := some "localhost", serverPort := some 3306 }
      ∧ NestOtel.getConnectionAttributes
            { type := "mysql", database := some "test",
              host := some "db.example", port := some 3310 }
          = { dbSystem := some "mysql", dbNamespace := some "test",
              serverAddress := some "db.example", serverPort := some 3310 } := by
  constructor <;> decide

/-- C2: the traced method performing save, partial-update save, find and
remove through the entity manager produces exactly these 18 spans in this
order: the provider span, then per manager call the manager-level span
followed by that operation's statement spans. -/
theorem scenarioSpans_entityManager_trace :
    NestOtel.scenarioSpans "Provider -> TestService.test"
        [.saveNew, .savePartialUpdate, .findAll, .removeRows]
      = [ "Provider -> TestService.test",
          "TypeORM -> EntityManager -> save",
          "TypeORM -> SELECT", "TypeORM -> BEGIN", "TypeORM -> INSERT",
          "TypeORM -> COMMIT",
          "TypeORM -> EntityManager -> save",
          "TypeORM -> SELECT", "TypeORM -> BEGIN", "TypeORM -> UPDATE",
          "TypeORM -> COMMIT",
          "TypeORM -> EntityManager -> find",
          "TypeORM -> SELECT",
          "TypeORM -> EntityManager -> remove",
          "TypeORM -> SELECT", "TypeORM -> BEGIN", "TypeORM -> DELETE",
          "TypeORM -> COMMIT" ]
    ∧ (NestOtel.scenarioSpans "Provider -> TestService.test"
        [.saveNew, .savePartialUpdate, .findAll, .removeRows]).length = 18 := by
  constructor <;> decide

/-- C1: the wrapped method returns to the caller exactly the outcome of
the original method — same synchronous value or throw, same promise
settlement, same stream values and termination — for every method,
receiver and argument list; only the span alongside differs. -/
theorem wrapMethod_preserves_behavior {ρ α β ε : Type}
    (name : String) (f : ρ → List α → NestOtel.MethodOutcome β ε)
    (self : ρ) (args : List α) :
    (NestOtel.wrapMethod name f self args).1 = f self args := by
  unfold NestOtel.wrapMethod
  cases h : f self args with
  | stream vs fin => simp [NestOtel.passThrough_eq]
  | sync v => simp
  | syncThrow e => simp
  | promiseResolve v => simp
  | promiseReject e => simp

/-- C8: whenever the original body throws, rejects, or errors its stream
with exception `e`, the wrapper records `e` on the span, marks the span
status error, ends the span, and the caller receives an outcome throwing
exactly `e` — the identical exception, never swallowed or transformed. -/
theorem wrapMethod_propagates_error {ρ α β ε : Type}
    (name : String) (f : ρ → List α → NestOtel.MethodOutcome β ε)
    (self : ρ) (args : List α) (e : ε)
    (h : NestOtel.thrownError (f self args) = some e) :
    NestOtel.thrownError (NestOtel.wrapMethod name f self args).1 = some e
      ∧ (NestOtel.wrapMethod name f self args).2.status = .error e
      ∧ (NestOtel.wrapMethod name f self args).2.ended = true
      ∧ (NestOtel.wrapMethod name f self args).2.recorded = some e := by
  unfold NestOtel.wrapMethod
  cases hf : f self args with
  | sync v => simp [NestOtel.thrownError, hf] at h
  | syncThrow e₀ =>
    simp [NestOtel.thrownError, hf] at h
    subst h
    simp [NestOtel.thrownError, NestOtel.endError, NestOtel.startSpan]
  | promiseResolve v => simp [NestOtel.thrownError, hf] at h
  | promiseReject e₀ =>
    simp [NestOtel.thrownError, hf] at h
    subst h
    simp [NestOtel.thrownError, NestOtel.endError, NestOtel.startSpan]
  | stream vs fin =>
    cases fin with
    | none => simp [NestOtel.thrownError, hf] at h
    | some e₀ =>
      simp [NestOtel.thrownError, hf] at h
      subst h
      simp [NestOtel.thrownError, NestOtel.endError, NestOtel.startSpan]

/-- Witness for C8: a method that always throws the exception 7
propagates 7 through the wrapper, and the span ends with error status and
7 recorded. -/
theorem wrapMethod_propagates_error_witness :
    NestOtel.thrownError (NestOtel.throwingMethod () []) = some 7
      ∧ (NestOtel.thrownError
            (NestOtel.wrapMethod "op" NestOtel.throwingMethod () []).1 = some 7
        ∧ (NestOtel.wrapMethod "op" NestOtel.throwingMethod () []).2.status
            = .error 7
        ∧ (NestOtel.wrapMethod "op" NestOtel.throwingMethod () []).2.ended = true
        ∧ (NestOtel.wrapMethod "op" NestOtel.throwingMethod () []).2.recorded
            = some 7) :=
  ⟨by decide,
   wrapMethod_propagates_error "op" NestOtel.throwingMethod () [] 7 (by decide)⟩

/-- C3: for chains of nested instrumented calls of any declared depths,
run under any interleaving of resumptions that drives every chain to
completion, each chain of depth n emits exactly n spans, and each span
records its direct caller's span as parent (the first being a root) — the
captured-and-restored context keeps the chains correctly nested no matter
how their settlements interleave with the other in-flight chains. -/
theorem nestedChains_span_count_and_nesting (depths sched : List Nat)
    (hdone : NestOtel.allDone
      (NestOtel.run (NestOtel.initChains depths) sched) = true)
    (i n : Nat) (hn : depths[i]? = some n) :
    NestOtel.chainReport
      ((NestOtel.run (NestOtel.initChains depths) sched).chains[i]?) n = true := by
  have hinv := NestOtel.sysInv_run depths _ sched (NestOtel.sysInv_init depths) i
  rw [hn] at hinv
  cases hc : (NestOtel.run (NestOtel.initChains depths) sched).chains[i]? with
  | none => rw [hc] at hinv; exact absurd hinv (by simp [NestOtel.optRel])
  | some c =>
    rw [hc] at hinv
    obtain ⟨hlen, hlink⟩ := hinv
    have hmem : c ∈ (NestOtel.run (NestOtel.initChains depths) sched).chains :=
      List.getElem?_mem hc
    have hrem : c.remaining = 0 := by
      have := List.all_eq_true.mp hdone c hmem
      simpa using this
    have hlen' : c.emitted.length = n := by omega
    simp [NestOtel.chainReport, hlen',
      NestOtel.linkedFrom_wellLinked _ _ _ hlink]

/-- Witness for C3: two chains of depths 2 and 3 run under an interleaved
schedule; the first chain ends with exactly 2 well-linked spans. -/
theorem nestedChains_span_count_and_nesting_witness :
    NestOtel.allDone
        (NestOtel.run (NestOtel.initChains [2, 3]) [0, 1, 1, 0, 1]) = true
      ∧ ([2, 3] : List Nat)[0]? = some 2
      ∧ NestOtel.chainReport
          ((NestOtel.run (NestOtel.initChains [2, 3])
            [0, 1, 1, 0, 1]).chains[0]?) 2 = true :=
  ⟨by decide, by decide,
   nestedChains_span_count_and_nesting [2, 3] [0, 1, 1, 0, 1] (by decide)
     0 2 (by decide)⟩

/-- C7: repeated `inject` calls on the same (instance, method) pair are
no-ops after the first: for any number of repeats, one external call still
reaches the underlying original method exactly once and emits exactly one
span. -/
theorem injectN_idempotent_single_span (n : Nat) :
    NestOtel.injectN (n + 1) NestOtel.freshMethod
        = { wrapperLayers := 1, marked := true }
      ∧ NestOtel.callThroughLayers
          (NestOtel.injectN (n + 1) NestOtel.freshMethod).wrapperLayers
        = (1, 1) := by
  have hfix : ∀ m : Nat,
      NestOtel.injectN m { wrapperLayers := 1, marked := true }
        = ({ wrapperLayers := 1, marked := true } : NestOtel.InstrumentedMethod) := by
    intro m
    induction m with
    | zero => rfl
    | succ k ih =>
      show NestOtel.injectN k
          (NestOtel.injectOnce { wrapperLayers := 1, marked := true }) = _
      simpa [NestOtel.injectOnce] using ih
  have h1 : NestOtel.injectN (n + 1) NestOtel.freshMethod
      = ({ wrapperLayers := 1, marked := true } : NestOtel.InstrumentedMethod) := by
    show NestOtel.injectN n (NestOtel.injectOnce NestOtel.freshMethod) = _
    simpa [NestOtel.injectOnce, NestOtel.freshMethod] using hfix n
  refine ⟨h1, ?_⟩
  rw [h1]
  rfl
